import Mathlib

/-
Verification of the coordination core of a NotebookLM browser-automation CLI
(`src/notebooklm_cli/cli.py`): host-wide lock acquisition, notebook-to-instance
resolution, per-instance profile bootstrap, probe-chain evaluation, search-state
detection, pending-result clearing, and the chat generation-completion detector.

Each Python function in scope is shallowly embedded as an executable Lean
definition; browser effects (Playwright queries, visibility checks, clicks) are
modelled through an explicit page interface whose primitive calls may fail,
mirroring the exception behaviour of the source.
-/

namespace NotebookLM

/-! ## MD5 (hashlib.md5), needed by `notebook_to_instance` -/
/-- Truncate to 32 bits. -/
def m32 (x : Nat) : Nat := x % 4294967296

/-- 32-bit left rotation. -/
def rotl32 (x s : Nat) : Nat := (m32 (x <<< s)) ||| (x >>> (32 - s))

/-- 32-bit complement. -/
def cnot32 (x : Nat) : Nat := 4294967295 - x

/-- UTF-8 encoding of one character, as byte values. -/
def utf8EncChar (c : Char) : List Nat :=
  let n := c.toNat
  if n < 128 then [n]
  else if n < 2048 then [192 ||| (n >>> 6), 128 ||| (n &&& 63)]
  else if n < 65536 then
    [224 ||| (n >>> 12), 128 ||| ((n >>> 6) &&& 63), 128 ||| (n &&& 63)]
  else
    [240 ||| (n >>> 18), 128 ||| ((n >>> 12) &&& 63),
     128 ||| ((n >>> 6) &&& 63), 128 ||| (n &&& 63)]

/-- UTF-8 encoding of a string, as byte values (Python `str.encode()`). -/
def utf8Bytes (s : String) : List Nat := (s.data.map utf8EncChar).flatten

/-- MD5 per-round constants (RFC 1321). -/
def md5K : List Nat :=
  [0xd76aa478, 0xe8c7b756, 0x242070db, 0xc1bdceee,
   0xf57c0faf, 0x4787c62a, 0xa8304613, 0xfd469501,
   0x698098d8, 0x8b44f7af, 0xffff5bb1, 0x895cd7be,
   0x6b901122, 0xfd987193, 0xa679438e, 0x49b40821,
   0xf61e2562, 0xc040b340, 0x265e5a51, 0xe9b6c7aa,
   0xd62f105d, 0x02441453, 0xd8a1e681, 0xe7d3fbc8,
   0x21e1cde6, 0xc33707d6, 0xf4d50d87, 0x455a14ed,
   0xa9e3e905, 0xfcefa3f8, 0x676f02d9, 0x8d2a4c8a,
   0xfffa3942, 0x8771f681, 0x6d9d6122, 0xfde5380c,
   0xa4beea44, 0x4bdecfa9, 0xf6bb4b60, 0xbebfbc70,
   0x289b7ec6, 0xeaa127fa, 0xd4ef3085, 0x04881d05,
   0xd9d4d039, 0xe6db99e5, 0x1fa27cf8, 0xc4ac5665,
   0xf4292244, 0x432aff97, 0xab9423a7, 0xfc93a039,
   0x655b59c3, 0x8f0ccc92, 0xffeff47d, 0x85845dd1,
   0x6fa87e4f, 0xfe2ce6e0, 0xa3014314, 0x4e0811a1,
   0xf7537e82, 0xbd3af235, 0x2ad7d2bb, 0xeb86d391]

/-- MD5 per-round shift amounts (RFC 1321). -/
def md5S : List Nat :=
  [7, 12, 17, 22, 7, 12, 17, 22, 7, 12, 17, 22, 7, 12, 17, 22,
   5, 9, 14, 20, 5, 9, 14, 20, 5, 9, 14, 20, 5, 9, 14, 20,
   4, 11, 16, 23, 4, 11, 16, 23, 4, 11, 16, 23, 4, 11, 16, 23,
   6, 10, 15, 21, 6, 10, 15, 21, 6, 10, 15, 21, 6, 10, 15, 21]

/-- Low `count` bytes of `n`, little-endian. -/
def leBytes (n count : Nat) : List Nat :=
  (List.range count).map (fun i => (n >>> (8 * i)) &&& 255)

/-- Little-endian 32-bit word `j` of a 64-byte chunk. -/
def leWord (b : List Nat) (j : Nat) : Nat :=
  b.getD (4 * j) 0 + 256 * b.getD (4 * j + 1) 0 +
    65536 * b.getD (4 * j + 2) 0 + 16777216 * b.getD (4 * j + 3) 0

/-- Split a byte list into 64-byte chunks (fuel-based, kernel-reducible). -/
def chunks64Aux : Nat → List Nat → List (List Nat)
  | 0, _ => []
  | _, [] => []
  | fuel + 1, l => l.take 64 :: chunks64Aux fuel (l.drop 64)

/-- Split a byte list into 64-byte chunks. -/
def chunks64 (l : List Nat) : List (List Nat) := chunks64Aux l.length l

/-- One MD5 compression step over a chunk's word function. -/
def md5Chunk (w : Nat → Nat) (st : Nat × Nat × Nat × Nat) : Nat × Nat × Nat × Nat :=
  let r := (List.range 64).foldl (fun st i =>
    let A := st.1; let B := st.2.1; let C := st.2.2.1; let D := st.2.2.2
    let fg : Nat × Nat :=
      if i < 16 then ((B &&& C) ||| ((cnot32 B) &&& D), i)
      else if i < 32 then ((D &&& B) ||| ((cnot32 D) &&& C), (5 * i + 1) % 16)
      else if i < 48 then (B ^^^ C ^^^ D, (3 * i + 5) % 16)
      else (C ^^^ (B ||| cnot32 D), (7 * i) % 16)
    let f := m32 (fg.1 + A + md5K.getD i 0 + w fg.2)
    (D, m32 (B + rotl32 f (md5S.getD i 0)), B, C)) st
  (m32 (st.1 + r.1), m32 (st.2.1 + r.2.1),
   m32 (st.2.2.1 + r.2.2.1), m32 (st.2.2.2 + r.2.2.2))

/-- MD5 padding: 0x80, zeros to 56 mod 64, then the 64-bit LE bit length. -/
def md5Pad (msg : List Nat) : List Nat :=
  let len := msg.length
  let zeros := (120 - (len + 1) % 64) % 64
  msg ++ [128] ++ List.replicate zeros 0 ++ leBytes ((8 * len) % 2 ^ 64) 8

/-- Full MD5 digest state over a byte message. -/
def md5Digest (msg : List Nat) : Nat × Nat × Nat × Nat :=
  (chunks64 (md5Pad msg)).foldl (fun st ch => md5Chunk (leWord ch) st)
    (0x67452301, 0xefcdab89, 0x98badcfe, 0x10325476)

/-- Lowercase hex character for a value below 16. -/
def hexChar (n : Nat) : Char :=
  if n < 10 then Char.ofNat (48 + n) else Char.ofNat (87 + n)

/-- Two lowercase hex characters of a byte. -/
def byteHex (b : Nat) : List Char := [hexChar (b / 16), hexChar (b % 16)]

/-- A 32-bit word as 8 lowercase hex characters, little-endian byte order. -/
def wordHexLE (w : Nat) : List Char := ((leBytes w 4).map byteHex).flatten

/-- `hashlib.md5(s.encode()).hexdigest()`. -/
def md5Hexdigest (s : String) : String :=
  let d := md5Digest (utf8Bytes s)
  String.mk (wordHexLE d.1 ++ wordHexLE d.2.1 ++ wordHexLE d.2.2.1 ++ wordHexLE d.2.2.2)

/-! ## Instance resolver: `notebook_to_instance` (cli.py lines 55-79) -/
/-- Code-point ranges (inclusive) of the characters matched by the regex
class `\d` in Python `str` patterns: the Unicode decimal digits
(category Nd). -/
def pyDigitRanges : List (Nat × Nat) :=
  [(48, 57), (1632, 1641), (1776, 1785), (1984, 1993), (2406, 2415),
   (2534, 2543), (2662, 2671), (2790, 2799), (2918, 2927), (3046, 3055),
   (3174, 3183), (3302, 3311), (3430, 3439), (3558, 3567), (3664, 3673),
   (3792, 3801), (3872, 3881), (4160, 4169), (4240, 4249), (6112, 6121),
   (6160, 6169), (6470, 6479), (6608, 6617), (6784, 6793), (6800, 6809),
   (6992, 7001), (7088, 7097), (7232, 7241), (7248, 7257), (42528, 42537),
   (43216, 43225), (43264, 43273), (43472, 43481), (43504, 43513),
   (43600, 43609), (44016, 44025), (65296, 65305), (66720, 66729),
   (68912, 68921), (69734, 69743), (69872, 69881), (69942, 69951),
   (70096, 70105), (70384, 70393), (70736, 70745), (70864, 70873),
   (71248, 71257), (71360, 71369), (71472, 71481), (71904, 71913),
   (72016, 72025), (72784, 72793), (73040, 73049), (73120, 73129),
   (92768, 92777), (92864, 92873), (93008, 93017), (120782, 120831),
   (123200, 123209), (123632, 123641), (125264, 125273), (130032, 130041)]

/-- The regex class `\d` on `str`: any Unicode decimal digit. -/
def isPyDigit (c : Char) : Bool :=
  pyDigitRanges.any (fun r => r.1 ≤ c.toNat && c.toNat ≤ r.2)

/-- Code points matched by the regex class `\s` in Python `str` patterns:
ASCII whitespace, the C0 file/group/record/unit separators, NEL, NBSP, and
the Unicode space characters. -/
def pySpaceCodes : List Nat :=
  [9, 10, 11, 12, 13, 28, 29, 30, 31, 32, 133, 160, 5760, 8192, 8193, 8194,
   8195, 8196, 8197, 8198, 8199, 8200, 8201, 8202, 8232, 8233, 8239, 8287,
   12288]

/-- The character class `[.\s]` of the regex `^(\d+)[.\s]`: a literal dot or
Unicode whitespace. -/
def isSepAfterDigits (c : Char) : Bool :=
  c = '.' || pySpaceCodes.contains c.toNat

/-- Leading digit run, i.e. the group of `^(\d+)` (Unicode decimal digits). -/
def leadingDigits (s : String) : List Char :=
  s.data.takeWhile isPyDigit

/-- Whether `re.match(r'^(\d+)[.\s]', s)` succeeds: a nonempty leading digit
run followed by a dot-or-whitespace character. -/
def numLeadMatch (s : String) : Bool :=
  let ds := leadingDigits s
  !ds.isEmpty &&
    (match s.data.drop ds.length with
     | [] => false
     | c :: _ => isSepAfterDigits c)

/-- `notebook_to_instance` (cli.py lines 55-79): a numeric lead followed by a
separator yields `nb_` + the digits; otherwise `nb_` + the first 8 hex
characters of the MD5 of the name. -/
def notebook_to_instance (notebook_name : String) : String :=
  if numLeadMatch notebook_name then
    "nb_" ++ String.mk (leadingDigits notebook_name)
  else
    "nb_" ++ (md5Hexdigest notebook_name).take 8

/-! ## Lock manager: `_acquire_lock` (cli.py lines 229-251) -/
/-- Result of `_acquire_lock`: either the flock succeeded at some attempt, or
the process exited with the given code. -/
inductive AcquireOutcome where
  | acquired (attempt : Nat)
  | exited (code : Nat)
deriving DecidableEq

/-- The polling loop of `_acquire_lock` from attempt `k` on. `avail j` tells
whether the non-blocking `flock` succeeds at attempt `j`; the loop sleeps 2
seconds after each failed attempt, so the elapsed time measured before attempt
`k` is `2 * k` seconds. On a failed attempt with `elapsed >= timeout` the
process exits with code 1 (`sys.exit(1)`). -/
def acquireFrom (avail : Nat → Bool) (timeout : Nat) (k : Nat) : AcquireOutcome :=
  if avail k then AcquireOutcome.acquired k
  else if timeout ≤ 2 * k then AcquireOutcome.exited 1
  else acquireFrom avail timeout (k + 1)
  termination_by timeout - 2 * k
  decreasing_by omega

/-- `_acquire_lock(timeout)`: the polling loop started at attempt 0. -/
def acquire_lock (avail : Nat → Bool) (timeout : Nat) : AcquireOutcome :=
  acquireFrom avail timeout 0

/-! ## Page driver interface

Playwright calls can raise; each primitive returns `Except PwError _`. Elements
are identified by opaque ids (`Nat`). -/
/-- A raised Playwright/driver exception. -/
structure PwError where
  msg : String
deriving DecidableEq

/-- The page capability surface used by the embedded functions:
`query_selector`, `query_selector_all`, `is_visible`, `inner_text`. -/
structure Page where
  query : String → Except PwError (Option Nat)
  queryAll : String → Except PwError (List Nat)
  visible : Nat → Except PwError Bool
  innerText : Nat → Except PwError String

/-- A page whose primitives never raise. -/
def Page.total (q : String → Option Nat) (qa : String → List Nat)
    (v : Nat → Bool) (txt : Nat → String) : Page :=
  ⟨fun s => Except.ok (q s), fun s => Except.ok (qa s),
   fun e => Except.ok (v e), fun e => Except.ok (txt e)⟩

/-- `el = page.query_selector(sel); el and el.is_visible()`. -/
def queryVisible (p : Page) (sel : String) : Except PwError Bool :=
  match p.query sel with
  | Except.error e => Except.error e
  | Except.ok none => Except.ok false
  | Except.ok (some el) => p.visible el

/-- A selector `sel` resolves on the pure page `(q, v)`: its query yields an
element that is visible. -/
def resolves (q : String → Option Nat) (v : Nat → Bool) (sel : String) : Prop :=
  ∃ e, q sel = some e ∧ v e = true

/-- The `for sel in ...: if query(sel) and visible: return` cascade, as used by
`detect_search_state` (cli.py lines 1023-1026). -/
def anyVisibleFrom (p : Page) : List String → Except PwError Bool
  | [] => Except.ok false
  | sel :: rest =>
    match queryVisible p sel with
    | Except.error e => Except.error e
    | Except.ok true => Except.ok true
    | Except.ok false => anyVisibleFrom p rest

/-! ## Search state machine: `detect_search_state` (cli.py lines 1002-1030)
and `detect_mode` (cli.py lines 987-1000) -/
/-- Selector for the pending-results affordance (the 查看/View button). -/
def viewButtonSelector : String := "button:has-text(\"查看\")"

/-- The two search-input selectors probed for the READY state. -/
def searchStateSelectors : List String :=
  ["textarea[aria-label=\"基于输入的查询发现来源\"]",
   "textarea[placeholder*=\"在网络中搜索新来源\"]"]

/-- Body of `detect_search_state` before its `except` clause. -/
def detectSearchStateBody (p : Page) : Except PwError String :=
  match queryVisible p viewButtonSelector with
  | Except.error e => Except.error e
  | Except.ok true => Except.ok "PENDING_RESULTS"
  | Except.ok false =>
    match anyVisibleFrom p searchStateSelectors with
    | Except.error e => Except.error e
    | Except.ok true => Except.ok "READY"
    | Except.ok false => Except.ok "UNKNOWN"

/-- `detect_search_state` (cli.py lines 1002-1030): any raised exception is
swallowed and mapped to UNKNOWN. -/
def detect_search_state (p : Page) : String :=
  match detectSearchStateBody p with
  | Except.ok s => s
  | Except.error _ => "UNKNOWN"

/-- Selector for the active source-search input probed by `detect_mode`. -/
def sourceSearchSelector : String :=
  "textarea[placeholder*=\"搜索新来源\"], input[placeholder*=\"搜索新来源\"]"

/-- Selector for the chat input probed by `detect_mode`. -/
def chatInputSelector : String :=
  "textarea[placeholder*=\"开始输入\"], textarea[aria-label=\"查询框\"]"

/-- Body of `detect_mode` before its `except` clause: both queries are issued
first, then visibility decides the mode. -/
def detectModeBody (p : Page) : Except PwError String :=
  match p.query sourceSearchSelector with
  | Except.error e => Except.error e
  | Except.ok ss =>
    match p.query chatInputSelector with
    | Except.error e => Except.error e
    | Except.ok ci =>
      match (match ss with
             | some el => p.visible el
             | none => Except.ok false) with
      | Except.error e => Except.error e
      | Except.ok true => Except.ok "source_search"
      | Except.ok false =>
        match (match ci with
               | some el => p.visible el
               | none => Except.ok false) with
        | Except.error e => Except.error e
        | Except.ok true => Except.ok "chat"
        | Except.ok false => Except.ok "unknown"

/-- `detect_mode` (cli.py lines 987-1000): any raised exception is swallowed
and mapped to `unknown`. -/
def detect_mode (p : Page) : String :=
  match detectModeBody p with
  | Except.ok s => s
  | Except.error _ => "unknown"

/-! ## Probe chain evaluation: the `for sel in ...` cascades of
`select_source_type` (cli.py lines 1044-1061) and `search_sources`
(cli.py lines 1493-1509) -/
/-- The probe cascade with its loop variable: `btn = None; for sel in sels:
btn = query(sel); if btn and btn.is_visible(): break`. The accumulator holds
the last query result, as the Python loop variable does. -/
def probeLoopAcc (p : Page) (acc : Option Nat) : List String → Except PwError (Option Nat)
  | [] => Except.ok acc
  | sel :: rest =>
    match p.query sel with
    | Except.error e => Except.error e
    | Except.ok (some el) =>
      match p.visible el with
      | Except.error e => Except.error e
      | Except.ok true => Except.ok (some el)
      | Except.ok false => probeLoopAcc p (some el) rest
    | Except.ok none => probeLoopAcc p none rest

/-- Evaluate a probe chain: first visible query result wins. -/
def probe_chain_first_visible (p : Page) (sels : List String) :
    Except PwError (Option Nat) :=
  probeLoopAcc p none sels

/-- The probe chain of `select_source_type` (cli.py lines 1044-1049). -/
def typeButtonSelectors : List String :=
  ["button:has-text(\"language\")",
   "button:has(span:text(\"language\"))",
   "[aria-label*=\"来源类型\"]",
   "[aria-label*=\"source type\"]"]

/-- The probe chain of `search_sources` (cli.py lines 1494-1500). -/
def searchInputSelectors : List String :=
  ["textarea[aria-label=\"基于输入的查询发现来源\"]",
   "textarea[placeholder*=\"在网络中搜索新来源\"]",
   "textarea[aria-label*=\"发现来源\"]",
   "textarea[aria-label*=\"查询发现\"]",
   "textarea[placeholder*=\"搜索新来源\"]"]

/-- Concrete page for the two-probe scenario: probe 1 of
`select_source_type`'s chain matches element 1, probe 2 matches element 2,
and only element 2 is visible. -/
def demoQuery : String → Option Nat := fun s =>
  if s = "button:has-text(\"language\")" then some 1
  else if s = "button:has(span:text(\"language\"))" then some 2
  else none

/-- Visibility for the two-probe scenario: only element 2 is visible. -/
def demoVisible : Nat → Bool := fun e => e == 2

/-! ## Clearing pending results: `clear_temp_sources` (cli.py lines 1799-1880) -/
/-- `needle.isPrefixOf hay || contains needle hay.tail` — Python's
`needle in hay` on character lists. -/
def charsContain (needle : List Char) : List Char → Bool
  | [] => needle.isEmpty
  | c :: t => needle.isPrefixOf (c :: t) || charsContain needle t

/-- Python `needle in hay` on strings. -/
def strContains (hay needle : String) : Bool := charsContain needle.data hay.data

/-- The delete-button text test of `clear_temp_sources` (cli.py line 1832). -/
def isDeleteText (text : String) : Bool :=
  strContains text "删除" || strContains text "Delete" || strContains text "Remove"

/-- The button scan of `clear_temp_sources` (cli.py lines 1825-1837): first
visible button whose stripped inner text contains a delete marker; a raising
call on a button is swallowed by the per-button `except: pass`. -/
def findDeleteButton (p : Page) : List Nat → Option Nat
  | [] => none
  | b :: rest =>
    match p.visible b with
    | Except.error _ => findDeleteButton p rest
    | Except.ok false => findDeleteButton p rest
    | Except.ok true =>
      match p.innerText b with
      | Except.error _ => findDeleteButton p rest
      | Except.ok t =>
        if isDeleteText t.trim then some b else findDeleteButton p rest

/-- The confirmation-dialog selectors (cli.py lines 1851-1857). -/
def confirmSelectors : List String :=
  ["button:has-text(\"确认\")",
   "button:has-text(\"确定\")",
   "button:has-text(\"Confirm\")",
   "button:has-text(\"OK\")",
   "button:has-text(\"Yes\")"]

/-- The confirmation scan (cli.py lines 1859-1865): first selector whose
query result is visible, together with that element; raising calls propagate
to the outer `except`. -/
def findConfirm (p : Page) : List String → Except PwError (Option (String × Nat))
  | [] => Except.ok none
  | sel :: rest =>
    match p.query sel with
    | Except.error e => Except.error e
    | Except.ok (some el) =>
      match p.visible el with
      | Except.error e => Except.error e
      | Except.ok true => Except.ok (some (sel, el))
      | Except.ok false => findConfirm p rest
    | Except.ok none => findConfirm p rest

/-- Remote-UI actions performed by `clear_temp_sources`. -/
inductive UiAction where
  | clickDelete (btn : Nat)
  | pressEscape
  | clickConfirm (sel : String) (btn : Nat)
deriving DecidableEq

/-- `clear_temp_sources` (cli.py lines 1799-1880). `p0` is the page at entry
(initial state detection, button scan, delete click), `p1` the page after the
delete click (confirmation scan), `p2` the page after the confirmation step
(final re-probe). Returns the boolean result together with the remote-UI
actions performed; any raised exception is swallowed by the outer `except`,
yielding `false`. -/
def clear_temp_sources (p0 p1 p2 : Page) : Bool × List UiAction :=
  let st := detect_search_state p0
  if st = "READY" then (true, [])
  else if st ≠ "PENDING_RESULTS" then (false, [])
  else
    match p0.queryAll "button" with
    | Except.error _ => (false, [])
    | Except.ok btns =>
      match findDeleteButton p0 btns with
      | none => (false, [UiAction.pressEscape])
      | some db =>
        match findConfirm p1 confirmSelectors with
        | Except.error _ => (false, [UiAction.clickDelete db])
        | Except.ok confirmRes =>
          let acts := UiAction.clickDelete db ::
            (match confirmRes with
             | some (sel, el) => [UiAction.clickConfirm sel el]
             | none => [])
          let finalState := detect_search_state p2
          if finalState = "READY" then (true, acts)
          else (decide (finalState ≠ "PENDING_RESULTS"), acts)

/-- A page in the READY search state: the first search-input selector yields a
visible element and nothing else resolves. -/
def readyQuery : String → Option Nat := fun s =>
  if s = "textarea[aria-label=\"基于输入的查询发现来源\"]" then some 7 else none

/-! ## Profile store: `auto_init_instance_profile` (cli.py lines 82-122)

The function touches only the instance profile directory (read/write) and the
selected template directory (read). The filesystem is modelled by the optional
child lists of those two directories: `none` = directory absent, `some l` =
directory with immediate children `l` (name/entry pairs). -/
/-- An immediate child of a profile directory: a file or a subdirectory with
its own subtree. -/
inductive FSEntry where
  | file (content : Nat)
  | dir (children : List (String × FSEntry))

/-- One iteration of the copy loop (cli.py lines 113-120): `copytree` for a
directory, `copy2` for a file, in both cases only if the destination child
does not already exist. -/
def copyChild (acc : List (String × FSEntry)) (it : String × FSEntry) :
    List (String × FSEntry) :=
  match it.2 with
  | FSEntry.dir _ => if (acc.lookup it.1).isSome then acc else acc ++ [it]
  | FSEntry.file _ => if (acc.lookup it.1).isSome then acc else acc ++ [it]

/-- Template-profile selection by browser type (cli.py lines 104-109). -/
def pickTemplate (browser_type : String)
    (chromeTmpl webkitTmpl firefoxTmpl : Option (List (String × FSEntry))) :
    Option (List (String × FSEntry)) :=
  if browser_type = "chrome" then chromeTmpl
  else if browser_type = "safari" ∨ browser_type = "webkit" then webkitTmpl
  else firefoxTmpl

/-- `auto_init_instance_profile` (cli.py lines 82-122): if the profile
directory is absent or empty, create it and merge-copy the selected template's
immediate children into it, skipping children already present; otherwise leave
it untouched. Returns the profile directory's children afterwards. -/
def auto_init_instance_profile (profile : Option (List (String × FSEntry)))
    (browser_type : String)
    (chromeTmpl webkitTmpl firefoxTmpl : Option (List (String × FSEntry))) :
    List (String × FSEntry) :=
  if profile.isNone || (profile.getD []).isEmpty then
    let cur := profile.getD []
    match pickTemplate browser_type chromeTmpl webkitTmpl firefoxTmpl with
    | some ts => if ts.isEmpty then cur else ts.foldl copyChild cur
    | none => cur
  else profile.getD []

/-! ## Generation completion detector: the phase-2 polling loop of
`smart_chat` (cli.py lines 1976-2089)

Each tick observes three signals: the stop-generation affordance, a loading
indicator, and the extracted response text (`_get_latest_response_text`). The
environment `env : Nat → Tick` gives the observations that a read at tick (or
post-loop read slot) `i` would return. -/
/-- One tick's observations. -/
structure Tick where
  stopVisible : Bool
  loadingVisible : Bool
  text : String
deriving DecidableEq

/-- The loop state: `last_text` and `stable_count`. -/
structure GenState where
  lastText : String
  stableCount : Nat
deriving DecidableEq

/-- The text-stability update (cli.py lines 2018-2023): only a text longer
than 50 characters is considered; identical text increments the counter, a
change resets it to zero and retains the new text, and a trivial text leaves
the state untouched. -/
def updateText (t : Tick) (s : GenState) : GenState :=
  if 50 < t.text.length then
    if t.text = s.lastText then ⟨s.lastText, s.stableCount + 1⟩
    else ⟨t.text, 0⟩
  else s

/-- The completion test (cli.py line 2028), evaluated on the updated state. -/
def fireCond (t : Tick) (s : GenState) : Bool :=
  (!t.stopVisible && !t.loadingVisible && decide (3 ≤ s.stableCount)) ||
    decide (5 ≤ s.stableCount)

/-- Whether a tick breaks the loop: the completion test runs only inside the
non-trivial-text branch (cli.py lines 2018-2030). -/
def tickFires (t : Tick) (s : GenState) : Bool :=
  decide (50 < t.text.length) && fireCond t (updateText t s)

/-- The reset applied after the completion test when an in-progress signal is
visible (cli.py lines 2033-2034). -/
def signalReset (t : Tick) (s : GenState) : GenState :=
  if t.stopVisible || t.loadingVisible then ⟨s.lastText, 0⟩ else s

/-- Full state update of one non-breaking tick. -/
def tickNext (t : Tick) (s : GenState) : GenState := signalReset t (updateText t s)

/-- Outcome of the polling loop: the tick at which it stopped, whether it
declared completion (`break`) or exhausted `max_wait`, and the final state. -/
structure LoopOutcome where
  exitTick : Nat
  completed : Bool
  state : GenState
deriving DecidableEq

/-- The polling loop `for i in range(max_wait)` (cli.py lines 1982-2038),
with `fuel` iterations remaining and `i` the current tick. -/
def chatLoopAux (env : Nat → Tick) : Nat → Nat → GenState → LoopOutcome
  | 0, i, s => ⟨i, false, s⟩
  | fuel + 1, i, s =>
    let t := env i
    if tickFires t s then ⟨i, true, updateText t s⟩
    else chatLoopAux env fuel (i + 1) (tickNext t s)

/-- The polling loop from its initial state (`last_text = ""`,
`stable_count = 0`). -/
def chatLoop (env : Nat → Tick) (maxWait : Nat) : LoopOutcome :=
  chatLoopAux env maxWait 0 ⟨"", 0⟩

/-- The state the loop holds entering tick `i`, assuming no earlier break. -/
def stateAt (env : Nat → Tick) : Nat → GenState
  | 0 => ⟨"", 0⟩
  | i + 1 => tickNext (env i) (stateAt env i)

/-- The fallback line capture (cli.py lines 2066-2078): stripped non-blank
lines after a line containing "Getting the context". -/
def captureAfterContext (ls : List String) : List String :=
  (ls.foldl (fun (st : Bool × List String) line =>
    if strContains line "Getting the context" then (true, st.2)
    else if st.1 && !(line.trim == "") then (st.1, st.2 ++ [line.trim])
    else st) (false, [])).2

/-- The backup extraction from the chat area's inner text (cli.py lines
2061-2083); `none` means no chat area element was found. -/
def fallbackExtract : Option String → String
  | none => ""
  | some area =>
    let captured := captureAfterContext (area.splitOn "\n")
    if captured.isEmpty then "" else String.intercalate "\n" captured

/-- Phases 3-4 of `smart_chat` after the loop stopped at tick `k` (cli.py
lines 2040-2083): two re-reads, an extra wait when they differ (shifting the
final read one slot further), then the final read; an empty final read falls
back to the chat-area extraction. -/
def smartChatFinish (env : Nat → Tick) (k : Nat) (chatArea : Option String) : String :=
  let t1 := (env (k + 1)).text
  let t2 := (env (k + 2)).text
  let finalRead := if t1 = t2 then (env (k + 3)).text else (env (k + 4)).text
  if finalRead ≠ "" then finalRead else fallbackExtract chatArea

/-- The completion-detection portion of `smart_chat` (phases 2-4): poll until
completion or `max_wait`, then return the best-available text. -/
def smart_chat_wait (env : Nat → Tick) (maxWait : Nat) (chatArea : Option String) : String :=
  smartChatFinish env (chatLoop env maxWait).exitTick chatArea

/-- A concrete non-trivial response text (51 characters). -/
def demoLong : String := String.mk (List.replicate 51 'a')

/-- A different non-trivial response text (52 characters). -/
def demoLong2 : String := String.mk (List.replicate 52 'b')

/-- Environment whose text is immediately stable: the loop completes. -/
def envComplete : Nat → Tick := fun _ => ⟨false, false, demoLong⟩

/-- Environment whose text alternates every tick: the loop never completes. -/
def envTimeout : Nat → Tick := fun j =>
  ⟨false, false, if j % 2 = 0 then demoLong else demoLong2⟩

/-- The claim's completion condition at tick `j`, on the counter as updated by
tick `j`: (a) neither in-progress signal visible and stability ≥ 3, or (b)
stability ≥ 5 regardless of the signals. -/
def completionCondAt (env : Nat → Tick) (j : Nat) : Prop :=
  ((env j).stopVisible = false ∧ (env j).loadingVisible = false ∧
    3 ≤ (updateText (env j) (stateAt env j)).stableCount) ∨
  5 ≤ (updateText (env j) (stateAt env j)).stableCount

/-- The convergence scenario's final text (61 characters). -/
def convergF : String := String.mk (List.replicate 61 'a')

/-- A concrete stream for the convergence scenario: strictly growing text up
to tick 10, constant (= `convergF`) afterwards, no in-progress signals. -/
def convergEnv : Nat → Tick := fun j =>
  ⟨false, false, String.mk (List.replicate (51 + min j 10) 'a')⟩

theorem acquireFrom_cases (avail : Nat → Bool) (timeout : Nat) :
    ∀ m k, timeout ≤ 2 * k + 2 * m →
      (∃ j, acquireFrom avail timeout k = AcquireOutcome.acquired j ∧
        avail j = true ∧ k ≤ j ∧ ∀ i, k ≤ i → i < j → avail i = false) ∨
      (acquireFrom avail timeout k = AcquireOutcome.exited 1 ∧
        ∃ j, k ≤ j ∧ timeout ≤ 2 * j ∧ ∀ i, k ≤ i → i ≤ j → avail i = false) := by
  intro m
  induction m with
  | zero =>
    intro k hk
    rw [acquireFrom]
    by_cases ha : avail k
    · exact Or.inl ⟨k, by simp [ha], ha, Nat.le_refl k,
        fun i h1 h2 => absurd (Nat.lt_of_le_of_lt h1 h2) (Nat.lt_irrefl k)⟩
    · right
      have hko : timeout ≤ 2 * k := by omega
      refine ⟨by simp [ha, hko], k, Nat.le_refl k, hko, ?_⟩
      intro i h1 h2
      have : i = k := Nat.le_antisymm h2 h1
      subst this
      exact Bool.eq_false_iff.mpr ha
  | succ m ih =>
    intro k hk
    rw [acquireFrom]
    by_cases ha : avail k
    · exact Or.inl ⟨k, by simp [ha], ha, Nat.le_refl k,
        fun i h1 h2 => absurd (Nat.lt_of_le_of_lt h1 h2) (Nat.lt_irrefl k)⟩
    · by_cases hko : timeout ≤ 2 * k
      · right
        refine ⟨by simp [ha, hko], k, Nat.le_refl k, hko, ?_⟩
        intro i h1 h2
        have : i = k := Nat.le_antisymm h2 h1
        subst this
        exact Bool.eq_false_iff.mpr ha
      · have hrec := ih (k + 1) (by omega)
        have havf : avail k = false := Bool.eq_false_iff.mpr ha
        rcases hrec with ⟨j, hj, hav, hkj, hbefore⟩ | ⟨hex, j, hkj, htj, hall⟩
        · left
          refine ⟨j, by simp [ha, hko, hj], hav, by omega, ?_⟩
          intro i h1 h2
          rcases Nat.eq_or_lt_of_le h1 with h | h
          · simpa [← h] using havf
          · exact hbefore i h h2
        · right
          refine ⟨by simp [ha, hko, hex], j, by omega, htj, ?_⟩
          intro i h1 h2
          rcases Nat.eq_or_lt_of_le h1 with h | h
          · simpa [← h] using havf
          · exact hall i h h2

/-- C1: for every timeout, `_acquire_lock` either returns having obtained the
(host-wide) lock at some attempt — with all earlier attempts having failed —
or, once the elapsed time (2 seconds per failed attempt) has reached the
timeout without the lock ever becoming available, terminates the process via
`sys.exit(1)`, a non-zero exit code; there is no third outcome, so it never
returns to the caller without the lock. -/
theorem c1_lock_acquisition (avail : Nat → Bool) (timeout : Nat) :
    (∃ k, acquire_lock avail timeout = AcquireOutcome.acquired k ∧
      avail k = true ∧ ∀ j, j < k → avail j = false) ∨
    (acquire_lock avail timeout = AcquireOutcome.exited 1 ∧
      ∃ k, timeout ≤ 2 * k ∧ ∀ j, j ≤ k → avail j = false) := by
  have h := acquireFrom_cases avail timeout timeout 0 (by omega)
  rcases h with ⟨j, hj, hav, _, hbefore⟩ | ⟨hex, j, _, htj, hall⟩
  · exact Or.inl ⟨j, hj, hav, fun i hi => hbefore i (Nat.zero_le i) hi⟩
  · exact Or.inr ⟨hex, j, htj, fun i hi => hall i (Nat.zero_le i) hi⟩

/-- C7: instance resolution. For every identifier: with a leading run of
(Unicode) decimal digits followed by a dot-or-whitespace separator — the
classes `\d` and `[.\s]` of Python `str` regexes — the key is `nb_` + that
run; otherwise it is `nb_` + the first 8 hex characters of the identifier's
MD5. Concretely, `"01. Research Notes"` resolves to `nb_01`; identifiers with
a non-breaking-space separator, Arabic-Indic digits or fullwidth digits also
take the digit branch; and `"Untitled Project"` resolves to `nb_328776f6`,
which is `nb_` + the 8-character prefix of its MD5 digest, all lowercase hex.
(Determinism is intrinsic: the embedding is a pure function.) -/
theorem c7_instance_resolution :
    (∀ s : String, numLeadMatch s = true →
      notebook_to_instance s = "nb_" ++ String.mk (leadingDigits s)) ∧
    (∀ s : String, numLeadMatch s = false →
      notebook_to_instance s = "nb_" ++ (md5Hexdigest s).take 8) ∧
    notebook_to_instance "01. Research Notes" = "nb_01" ∧
    notebook_to_instance "1\u00A0Notes" = "nb_1" ∧
    notebook_to_instance "١. Test" = "nb_١" ∧
    notebook_to_instance "０１. x" = "nb_０１" ∧
    notebook_to_instance "Untitled Project" = "nb_328776f6" ∧
    (md5Hexdigest "Untitled Project").take 8 = "328776f6" ∧
    String.length "328776f6" = 8 ∧
    ("328776f6".data.all (fun c => c.isDigit || ('a' ≤ c && c ≤ 'f'))) = true := by
  refine ⟨?_, ?_, ?_, ?_, ?_, ?_, ?_, ?_, ?_, ?_⟩
  · intro s h; simp [notebook_to_instance, h]
  · intro s h; simp [notebook_to_instance, h]
  · decide
  · decide
  · decide
  · decide
  · set_option maxRecDepth 100000 in decide
  · set_option maxRecDepth 100000 in decide
  · decide
  · decide

/-- Witness for C7: both branches applied at concrete identifiers. -/
theorem c7_witness :
    notebook_to_instance "01. Research Notes" =
      "nb_" ++ String.mk (leadingDigits "01. Research Notes") ∧
    notebook_to_instance "Untitled Project" =
      "nb_" ++ (md5Hexdigest "Untitled Project").take 8 :=
  ⟨c7_instance_resolution.1 "01. Research Notes" (by decide),
   c7_instance_resolution.2.1 "Untitled Project" (by decide)⟩

theorem queryVisible_total (q : String → Option Nat) (qa : String → List Nat)
    (v : Nat → Bool) (txt : Nat → String) (sel : String) :
    queryVisible (Page.total q qa v txt) sel =
      Except.ok (match q sel with
                 | some el => v el
                 | none => false) := by
  cases hq : q sel with
  | none => simp [queryVisible, Page.total, hq]
  | some el => simp [queryVisible, Page.total, hq]

theorem anyVisibleFrom_total (q : String → Option Nat) (qa : String → List Nat)
    (v : Nat → Bool) (txt : Nat → String) (sels : List String) :
    anyVisibleFrom (Page.total q qa v txt) sels =
      Except.ok (sels.any (fun sel => match q sel with
                                      | some el => v el
                                      | none => false)) := by
  induction sels with
  | nil => rfl
  | cons sel rest ih =>
    rw [anyVisibleFrom, queryVisible_total]
    by_cases h : (match q sel with | some el => v el | none => false) = true
    · simp [h]
    · simp only [Bool.not_eq_true] at h
      simp [h, ih]

theorem resolves_iff (q : String → Option Nat) (v : Nat → Bool) (sel : String) :
    resolves q v sel ↔ (match q sel with
                        | some el => v el
                        | none => false) = true := by
  unfold resolves
  cases hq : q sel with
  | none => simp
  | some el => simp

theorem any_resolves_iff (q : String → Option Nat) (v : Nat → Bool)
    (sels : List String) :
    (sels.any (fun sel => match q sel with
                          | some el => v el
                          | none => false)) = true ↔
      ∃ sel ∈ sels, resolves q v sel := by
  rw [List.any_eq_true]
  constructor
  · rintro ⟨sel, hmem, hsel⟩
    exact ⟨sel, hmem, (resolves_iff q v sel).mpr hsel⟩
  · rintro ⟨sel, hmem, hres⟩
    exact ⟨sel, hmem, (resolves_iff q v sel).mp hres⟩

theorem detect_search_state_total (q : String → Option Nat)
    (qa : String → List Nat) (v : Nat → Bool) (txt : Nat → String) :
    detect_search_state (Page.total q qa v txt) =
      (if (match q viewButtonSelector with
           | some el => v el
           | none => false) then "PENDING_RESULTS"
       else if searchStateSelectors.any (fun sel => match q sel with
                                                    | some el => v el
                                                    | none => false) then "READY"
       else "UNKNOWN") := by
  unfold detect_search_state detectSearchStateBody
  rw [queryVisible_total, anyVisibleFrom_total]
  by_cases h1 : (match q viewButtonSelector with
                 | some el => v el
                 | none => false) = true
  · simp [h1]
  · simp only [Bool.not_eq_true] at h1
    by_cases h2 : (searchStateSelectors.any (fun sel => match q sel with
                                                        | some el => v el
                                                        | none => false)) = true
    · simp [h1, h2]
    · simp only [Bool.not_eq_true] at h2
      simp [h1, h2]

/-- C5: search-state detection on any non-raising page. Whenever the
pending-results affordance (查看 button) resolves, the state is
PENDING_RESULTS — regardless of the search-input affordances. If the pending
affordance is absent, the state is READY exactly when one of the visible
search-input affordances resolves. If neither the pending affordance nor any
search-input affordance resolves, the state is UNKNOWN. -/
theorem c5_detect_search_state (q : String → Option Nat) (qa : String → List Nat)
    (v : Nat → Bool) (txt : Nat → String) :
    (resolves q v viewButtonSelector →
      detect_search_state (Page.total q qa v txt) = "PENDING_RESULTS") ∧
    (q viewButtonSelector = none →
      (detect_search_state (Page.total q qa v txt) = "READY" ↔
        ∃ sel ∈ searchStateSelectors, resolves q v sel)) ∧
    (¬ resolves q v viewButtonSelector →
      (∀ sel ∈ searchStateSelectors, ¬ resolves q v sel) →
      detect_search_state (Page.total q qa v txt) = "UNKNOWN") := by
  rw [detect_search_state_total q qa v txt]
  refine ⟨?_, ?_, ?_⟩
  · intro hres
    rw [resolves_iff] at hres
    rw [if_pos hres]
  · intro habs
    rw [habs]
    simp only [Bool.false_eq_true, if_false]
    by_cases hany : (searchStateSelectors.any
        (fun sel => match q sel with | some el => v el | none => false)) = true
    · rw [if_pos hany]
      simpa using (any_resolves_iff q v searchStateSelectors).mp hany
    · rw [if_neg hany]
      constructor
      · intro h; exact absurd h (by decide)
      · intro h
        exact absurd ((any_resolves_iff q v searchStateSelectors).mpr h) hany
  · intro hpend hins
    rw [resolves_iff] at hpend
    simp only [Bool.not_eq_true] at hpend
    rw [hpend]
    simp only [Bool.false_eq_true, if_false]
    rw [if_neg]
    intro hany
    obtain ⟨sel, hmem, hres⟩ := (any_resolves_iff q v searchStateSelectors).mp hany
    exact hins sel hmem hres

/-- Witness for C5: a concrete page where the pending affordance is visible
(so PENDING_RESULTS wins even though the search input also resolves), and a
concrete page with no pending affordance and a visible input (READY). -/
theorem c5_witness :
    detect_search_state (Page.total
      (fun sel => if sel = viewButtonSelector then some 0
                  else if sel = "textarea[aria-label=\"基于输入的查询发现来源\"]" then some 1
                  else none)
      (fun _ => []) (fun _ => true) (fun _ => "")) = "PENDING_RESULTS" ∧
    (detect_search_state (Page.total
      (fun sel => if sel = "textarea[aria-label=\"基于输入的查询发现来源\"]" then some 1
                  else none)
      (fun _ => []) (fun _ => true) (fun _ => "")) = "READY" ↔
      ∃ sel ∈ searchStateSelectors,
        resolves (fun sel => if sel = "textarea[aria-label=\"基于输入的查询发现来源\"]" then some 1
                             else none) (fun _ => true) sel) :=
  ⟨(c5_detect_search_state _ _ _ _).1 ⟨0, by decide, rfl⟩,
   (c5_detect_search_state _ _ _ _).2.1 (by decide)⟩

/-- C10: state detection is total at the public interface. For every page —
including pages whose probing primitives raise — `detect_search_state` returns
one of exactly READY / PENDING_RESULTS / UNKNOWN and `detect_mode` returns one
of exactly chat / source_search / unknown; neither propagates an exception,
and every raising body is mapped to the UNKNOWN / unknown value. -/
theorem c10_detection_total (p : Page) :
    (detect_search_state p = "READY" ∨ detect_search_state p = "PENDING_RESULTS" ∨
      detect_search_state p = "UNKNOWN") ∧
    (detect_mode p = "chat" ∨ detect_mode p = "source_search" ∨
      detect_mode p = "unknown") ∧
    (∀ err, detectSearchStateBody p = Except.error err →
      detect_search_state p = "UNKNOWN") ∧
    (∀ err, detectModeBody p = Except.error err → detect_mode p = "unknown") := by
  refine ⟨?_, ?_, ?_, ?_⟩
  · unfold detect_search_state detectSearchStateBody
    cases queryVisible p viewButtonSelector with
    | error e => simp
    | ok b =>
      cases b with
      | true => simp
      | false =>
        cases anyVisibleFrom p searchStateSelectors with
        | error e => simp
        | ok b2 => cases b2 <;> simp
  · unfold detect_mode detectModeBody
    cases p.query sourceSearchSelector with
    | error e => simp
    | ok ss =>
      cases p.query chatInputSelector with
      | error e => simp
      | ok ci =>
        cases hss : (match ss with
                     | some el => p.visible el
                     | none => Except.ok false) with
        | error e => simp [hss]
        | ok b =>
          cases b with
          | true => simp [hss]
          | false =>
            cases hci : (match ci with
                         | some el => p.visible el
                         | none => Except.ok false) with
            | error e => simp [hss, hci]
            | ok b2 => cases b2 <;> simp [hss, hci]
  · intro err herr
    unfold detect_search_state
    rw [herr]
  · intro err herr
    unfold detect_mode
    rw [herr]

/-- Witness for C10: a page whose every primitive raises; both bodies error
and both detectors return the unknown value. -/
theorem c10_witness :
    detect_search_state ⟨fun _ => Except.error ⟨"boom"⟩, fun _ => Except.error ⟨"boom"⟩,
      fun _ => Except.error ⟨"boom"⟩, fun _ => Except.error ⟨"boom"⟩⟩ = "UNKNOWN" ∧
    detect_mode ⟨fun _ => Except.error ⟨"boom"⟩, fun _ => Except.error ⟨"boom"⟩,
      fun _ => Except.error ⟨"boom"⟩, fun _ => Except.error ⟨"boom"⟩⟩ = "unknown" :=
  ⟨(c10_detection_total _).2.2.1 ⟨"boom"⟩ rfl,
   (c10_detection_total _).2.2.2 ⟨"boom"⟩ rfl⟩

theorem probeLoopAcc_spec (q : String → Option Nat) (qa : String → List Nat)
    (v : Nat → Bool) (txt : Nat → String) :
    ∀ (sels : List String) (acc : Option Nat) (i : Nat) (hi : i < sels.length),
      resolves q v (sels.get ⟨i, hi⟩) →
      (∀ j (hj : j < i), ¬ resolves q v (sels.get ⟨j, Nat.lt_trans hj hi⟩)) →
      ∃ e, q (sels.get ⟨i, hi⟩) = some e ∧ v e = true ∧
        probeLoopAcc (Page.total q qa v txt) acc sels = Except.ok (some e) := by
  intro sels
  induction sels with
  | nil =>
    intro acc i hi
    exact absurd hi (by simp)
  | cons sel rest ih =>
    intro acc i hi hres hbefore
    cases i with
    | zero =>
      obtain ⟨e, hqe, hve⟩ := hres
      have hqe' : q sel = some e := hqe
      refine ⟨e, hqe, hve, ?_⟩
      unfold probeLoopAcc
      simp [Page.total, hqe', hve]
    | succ i' =>
      have hi' : i' < rest.length := by
        simpa [Nat.succ_lt_succ_iff] using hi
      have hres' : resolves q v (rest.get ⟨i', hi'⟩) := hres
      have hbefore' : ∀ j (hj : j < i'), ¬ resolves q v (rest.get ⟨j, Nat.lt_trans hj hi'⟩) := by
        intro j hj
        exact hbefore (j + 1) (Nat.succ_lt_succ hj)
      cases hq : q sel with
      | none =>
        obtain ⟨e, hqe, hve, hloop⟩ := ih none i' hi' hres' hbefore'
        refine ⟨e, hqe, hve, ?_⟩
        unfold probeLoopAcc
        simp only [Page.total, hq]
        exact hloop
      | some el =>
        have hnv : v el = false := by
          rcases hv : v el with _ | _
          · rfl
          · exact absurd ⟨el, hq, hv⟩ (hbefore 0 (Nat.succ_pos i'))
        obtain ⟨e, hqe, hve, hloop⟩ := ih (some el) i' hi' hres' hbefore'
        refine ⟨e, hqe, hve, ?_⟩
        unfold probeLoopAcc
        simp only [Page.total, hq, hnv]
        exact hloop

/-- C9: for a fixed non-raising page, chain evaluation iterates the probes in
order and the selected element is the (visible) candidate of the first probe
whose candidate is visible; probes whose candidate is invisible (or absent)
are skipped in favour of a later probe with a visible candidate. -/
theorem c9_probe_chain (q : String → Option Nat) (qa : String → List Nat)
    (v : Nat → Bool) (txt : Nat → String) (sels : List String) (i : Nat)
    (hi : i < sels.length)
    (hres : resolves q v (sels.get ⟨i, hi⟩))
    (hbefore : ∀ j (hj : j < i), ¬ resolves q v (sels.get ⟨j, Nat.lt_trans hj hi⟩)) :
    ∃ e, q (sels.get ⟨i, hi⟩) = some e ∧ v e = true ∧
      probe_chain_first_visible (Page.total q qa v txt) sels = Except.ok (some e) :=
  probeLoopAcc_spec q qa v txt sels none i hi hres hbefore

/-- Witness for C9: on `select_source_type`'s own chain with probe 1 matching
an invisible element and probe 2 a visible one, the evaluator returns probe
2's element (2), never probe 1's (1). -/
theorem c9_witness :
    probe_chain_first_visible
      (Page.total demoQuery (fun _ => []) demoVisible (fun _ => ""))
      typeButtonSelectors = Except.ok (some 2) := by
  obtain ⟨e, hqe, hve, hloop⟩ :=
    c9_probe_chain demoQuery (fun _ => []) demoVisible (fun _ => "")
      typeButtonSelectors 1 (by decide) ⟨2, by decide, by decide⟩
      (by
        intro j hj
        have hj0 : j = 0 := by omega
        subst hj0
        rintro ⟨e, he, hv⟩
        have he' : e = 1 := by
          have : demoQuery "button:has-text(\"language\")" = some e := he
          simpa [demoQuery] using this.symm
        subst he'
        simp [demoVisible] at hv)
  have he2 : e = 2 := by
    have : demoQuery "button:has(span:text(\"language\"))" = some e := hqe
    simpa [demoQuery] using this.symm
  subst he2
  exact hloop

/-- C6: `clear_temp_sources` called when the detected state is READY is a
no-op (no remote-UI action) returning success; and whenever it returns
success, either that READY no-op case applied, or the re-probe of the search
state after its actions yielded a state other than PENDING_RESULTS — it never
reports success while the re-probed state is still PENDING_RESULTS. -/
theorem c6_clear_pending (p0 p1 p2 : Page) :
    (detect_search_state p0 = "READY" → clear_temp_sources p0 p1 p2 = (true, [])) ∧
    ((clear_temp_sources p0 p1 p2).1 = true →
      detect_search_state p0 = "READY" ∨ detect_search_state p2 ≠ "PENDING_RESULTS") := by
  constructor
  · intro hready
    unfold clear_temp_sources
    rw [if_pos hready]
  · by_cases hready : detect_search_state p0 = "READY"
    · intro _
      exact Or.inl hready
    · unfold clear_temp_sources
      rw [if_neg hready]
      by_cases hpend : detect_search_state p0 = "PENDING_RESULTS"
      · rw [if_neg (by simpa using hpend)]
        cases hq : p0.queryAll "button" with
        | error e => intro h; simp at h
        | ok btns =>
          dsimp only
          cases hf : findDeleteButton p0 btns with
          | none => intro h; simp at h
          | some db =>
            dsimp only
            cases hc : findConfirm p1 confirmSelectors with
            | error e => intro h; simp at h
            | ok confirmRes =>
              dsimp only
              by_cases hfin : detect_search_state p2 = "READY"
              · intro _
                right
                rw [hfin]
                decide
              · intro h
                simp only [if_neg hfin] at h
                right
                simpa using h
      · rw [if_pos (by simpa using hpend)]
        intro h
        simp at h

/-- Witness for C6: on a concrete READY page, `clear_temp_sources` performs no
action and succeeds; and a success implies the no-op case or a non-pending
re-probe. -/
theorem c6_witness :
    clear_temp_sources
      (Page.total readyQuery (fun _ => []) (fun _ => true) (fun _ => ""))
      (Page.total readyQuery (fun _ => []) (fun _ => true) (fun _ => ""))
      (Page.total readyQuery (fun _ => []) (fun _ => true) (fun _ => "")) =
      (true, []) :=
  (c6_clear_pending _ _ _).1 (by decide)

theorem foldl_copyChild_grows :
    ∀ (ts acc : List (String × FSEntry)), acc <+: ts.foldl copyChild acc := by
  intro ts
  induction ts with
  | nil => intro acc; exact List.prefix_refl acc
  | cons t rest ih =>
    intro acc
    have h1 : acc <+: copyChild acc t := by
      unfold copyChild
      cases t.2 with
      | file c =>
        by_cases h : (acc.lookup t.1).isSome = true
        · rw [if_pos h]
        · rw [if_neg h]; exact ⟨[t], rfl⟩
      | dir c =>
        by_cases h : (acc.lookup t.1).isSome = true
        · rw [if_pos h]
        · rw [if_neg h]; exact ⟨[t], rfl⟩
    exact h1.trans (ih (copyChild acc t))

theorem foldl_copyChild_ne_nil (t : String × FSEntry)
    (rest : List (String × FSEntry)) :
    (t :: rest).foldl copyChild [] ≠ [] := by
  have hstep : copyChild [] t = [t] := by
    unfold copyChild
    cases t.2 <;> rfl
  have h := foldl_copyChild_grows rest (copyChild [] t)
  rw [hstep] at h
  obtain ⟨s, hs⟩ := h
  intro hnil
  rw [List.foldl_cons, hstep] at hnil
  rw [hnil] at hs
  exact List.cons_ne_nil t s hs

/-- C8: profile bootstrap is idempotent and non-destructive. Running
`auto_init_instance_profile` a second time on the profile produced by a first
run changes nothing; and an immediate child already present in an existing
profile directory is preserved unchanged — even when the selected template
holds a different child of the same name, since a non-empty profile is not
touched at all and during initialisation existing children are never
overwritten. -/
theorem c8_profile_bootstrap (profile : Option (List (String × FSEntry)))
    (browser_type : String)
    (chromeTmpl webkitTmpl firefoxTmpl : Option (List (String × FSEntry))) :
    (auto_init_instance_profile
        (some (auto_init_instance_profile profile browser_type
          chromeTmpl webkitTmpl firefoxTmpl))
        browser_type chromeTmpl webkitTmpl firefoxTmpl =
      auto_init_instance_profile profile browser_type
        chromeTmpl webkitTmpl firefoxTmpl) ∧
    (∀ l n e, profile = some l → l.lookup n = some e →
      (auto_init_instance_profile profile browser_type
        chromeTmpl webkitTmpl firefoxTmpl).lookup n = some e) := by
  have hsome_ne : ∀ r : List (String × FSEntry), r ≠ [] →
      auto_init_instance_profile (some r) browser_type
        chromeTmpl webkitTmpl firefoxTmpl = r := by
    intro r hr
    unfold auto_init_instance_profile
    rw [if_neg (by simpa using hr)]
    rfl
  constructor
  · by_cases hinit : (profile.isNone || (profile.getD []).isEmpty) = true
    · have hcur : profile.getD [] = [] := by
        cases profile with
        | none => rfl
        | some l =>
          simp only [Bool.or_eq_true] at hinit
          rcases hinit with h | h
          · simp at h
          · simpa using h
      have hfirst : auto_init_instance_profile profile browser_type
          chromeTmpl webkitTmpl firefoxTmpl =
          (match pickTemplate browser_type chromeTmpl webkitTmpl firefoxTmpl with
           | some ts => if ts.isEmpty then [] else ts.foldl copyChild []
           | none => []) := by
        unfold auto_init_instance_profile
        rw [if_pos hinit]
        dsimp only
        rw [hcur]
      rw [hfirst]
      cases hpick : pickTemplate browser_type chromeTmpl webkitTmpl firefoxTmpl with
      | none =>
        dsimp only
        unfold auto_init_instance_profile
        rw [if_pos (by rfl)]
        dsimp only
        rw [hpick]
        rfl
      | some ts =>
        dsimp only
        by_cases hts : ts.isEmpty = true
        · rw [if_pos hts]
          unfold auto_init_instance_profile
          rw [if_pos (by rfl)]
          dsimp only
          rw [hpick]
          dsimp only
          rw [if_pos hts]
          rfl
        · rw [if_neg hts]
          have hr : ts.foldl copyChild [] ≠ [] := by
            cases ts with
            | nil => simp at hts
            | cons t rest => exact foldl_copyChild_ne_nil t rest
          exact hsome_ne _ hr
    · have hval : auto_init_instance_profile profile browser_type
          chromeTmpl webkitTmpl firefoxTmpl = profile.getD [] := by
        unfold auto_init_instance_profile
        rw [if_neg hinit]
      simp only [Bool.or_eq_true, not_or, Bool.not_eq_true] at hinit
      rw [hval]
      refine hsome_ne _ ?_
      intro h
      rw [h] at hinit
      simp at hinit
  · intro l n e hp hl
    subst hp
    have hl0 : l ≠ [] := by
      intro h
      subst h
      simp at hl
    rw [hsome_ne l hl0]
    exact hl

/-- Witness for C8: a profile already holding `Cookies` keeps its own copy
even though the chrome template holds a different `Cookies`. -/
theorem c8_witness :
    (auto_init_instance_profile (some [("Cookies", FSEntry.file 1)]) "chrome"
        (some [("Cookies", FSEntry.file 2)]) none none).lookup "Cookies" =
      some (FSEntry.file 1) :=
  (c8_profile_bootstrap (some [("Cookies", FSEntry.file 1)]) "chrome"
      (some [("Cookies", FSEntry.file 2)]) none none).2
    [("Cookies", FSEntry.file 1)] "Cookies" (FSEntry.file 1) rfl rfl

theorem chatLoopAux_noFire (env : Nat → Tick) :
    ∀ fuel i, (∀ j, i ≤ j → j < i + fuel → tickFires (env j) (stateAt env j) = false) →
      chatLoopAux env fuel i (stateAt env i) = ⟨i + fuel, false, stateAt env (i + fuel)⟩ := by
  intro fuel
  induction fuel with
  | zero => intro i _; simp [chatLoopAux]
  | succ n ih =>
    intro i hno
    unfold chatLoopAux
    rw [if_neg (by simp [hno i (Nat.le_refl i) (by omega)])]
    have : tickNext (env i) (stateAt env i) = stateAt env (i + 1) := rfl
    rw [this]
    have h := ih (i + 1) (fun j h1 h2 => hno j (by omega) (by omega))
    rw [h]
    have : i + 1 + n = i + (n + 1) := by omega
    rw [this]

theorem chatLoopAux_fireAt (env : Nat → Tick) :
    ∀ fuel i k, i ≤ k → k < i + fuel →
      tickFires (env k) (stateAt env k) = true →
      (∀ j, i ≤ j → j < k → tickFires (env j) (stateAt env j) = false) →
      chatLoopAux env fuel i (stateAt env i) =
        ⟨k, true, updateText (env k) (stateAt env k)⟩ := by
  intro fuel
  induction fuel with
  | zero => intro i k h1 h2; omega
  | succ n ih =>
    intro i k h1 h2 hfire hno
    unfold chatLoopAux
    rcases Nat.eq_or_lt_of_le h1 with heq | hlt
    · subst heq
      rw [if_pos (by simpa using hfire)]
    · rw [if_neg (by simp [hno i (Nat.le_refl i) hlt])]
      have hst : tickNext (env i) (stateAt env i) = stateAt env (i + 1) := rfl
      rw [hst]
      exact ih (i + 1) k hlt (by omega) hfire
        (fun j hj1 hj2 => hno j (by omega) hj2)

theorem chatLoopAux_not_completed (env : Nat → Tick) :
    ∀ fuel i s, (chatLoopAux env fuel i s).completed = false →
      (chatLoopAux env fuel i s).exitTick = i + fuel := by
  intro fuel
  induction fuel with
  | zero => intro i s _; simp [chatLoopAux]
  | succ n ih =>
    intro i s h
    unfold chatLoopAux at h ⊢
    by_cases hf : tickFires (env i) s = true
    · rw [if_pos (by simpa using hf)] at h
      simp at h
    · rw [if_neg (by simpa using hf)] at h ⊢
      rw [ih (i + 1) (tickNext (env i) s) h]
      omega

/-- C3 counterexample: a tick with no in-progress signal and no extractable
text (empty, hence not above the minimum length) does not reset the stability
counter — the loop state keeps its counter of 2, where the claim requires a
reset to zero. -/
theorem c3_counterexample :
    (Tick.mk false false "").text.length ≤ 50 ∧
    (tickNext (Tick.mk false false "") (GenState.mk demoLong 2)).stableCount = 2 ∧
    (2 : Nat) ≠ 0 := by
  refine ⟨by decide, ?_, by decide⟩
  rfl

/-- C3 (amended): on a non-breaking tick with neither in-progress signal
visible, the counter is incremented exactly when the extracted text exceeds
the minimum length (50) and equals the retained previous text; a non-trivial
change resets it to zero and retains the new text; absence of extractable
text leaves counter and retained text unchanged. On a non-breaking tick where
an in-progress signal is visible, the counter is reset to zero after the text
update. -/
theorem c3_stability_counter (t : Tick) (s : GenState) :
    (t.stopVisible = false → t.loadingVisible = false →
      ((50 < t.text.length → t.text = s.lastText →
          tickNext t s = ⟨s.lastText, s.stableCount + 1⟩) ∧
       (50 < t.text.length → t.text ≠ s.lastText → tickNext t s = ⟨t.text, 0⟩) ∧
       (t.text.length ≤ 50 → tickNext t s = s))) ∧
    ((t.stopVisible = true ∨ t.loadingVisible = true) →
      (tickNext t s).stableCount = 0) := by
  constructor
  · intro h1 h2
    refine ⟨?_, ?_, ?_⟩
    · intro hlen heq
      have hu : updateText t s = ⟨s.lastText, s.stableCount + 1⟩ := by
        unfold updateText
        rw [if_pos hlen, if_pos heq]
      unfold tickNext signalReset
      rw [hu, h1, h2]
      simp
    · intro hlen hne
      have hu : updateText t s = ⟨t.text, 0⟩ := by
        unfold updateText
        rw [if_pos hlen, if_neg hne]
      unfold tickNext signalReset
      rw [hu, h1, h2]
      simp
    · intro hlen
      have hu : updateText t s = s := by
        unfold updateText
        rw [if_neg (by omega)]
      unfold tickNext signalReset
      rw [hu, h1, h2]
      simp
  · intro hsig
    unfold tickNext signalReset
    rcases hsig with h | h <;> simp [h]

/-- Witness for C3 (amended): concrete instances of the three no-signal cases
and the signal-reset case. -/
theorem c3_witness :
    tickNext (Tick.mk false false demoLong) (GenState.mk demoLong 2) =
      GenState.mk demoLong 3 ∧
    tickNext (Tick.mk false false demoLong2) (GenState.mk demoLong 2) =
      GenState.mk demoLong2 0 ∧
    tickNext (Tick.mk false false "") (GenState.mk demoLong 2) =
      GenState.mk demoLong 2 ∧
    (tickNext (Tick.mk true false demoLong) (GenState.mk demoLong 2)).stableCount = 0 :=
  ⟨((c3_stability_counter _ _).1 rfl rfl).1 (by decide) rfl,
   ((c3_stability_counter _ _).1 rfl rfl).2.1 (by decide) (by decide),
   ((c3_stability_counter _ _).1 rfl rfl).2.2 (by decide),
   (c3_stability_counter _ _).2 (Or.inl rfl)⟩

/-- C4 counterexample: `smart_chat` returns a plain string with no
completeness tag — a completed run and a timed-out run can return identical
values, so the caller cannot distinguish them from the result. -/
theorem c4_counterexample :
    (chatLoop envComplete 4).completed = true ∧
    (chatLoop envTimeout 4).completed = false ∧
    smart_chat_wait envComplete 4 none = smart_chat_wait envTimeout 4 none := by
  refine ⟨?_, ?_, ?_⟩ <;> decide

/-- C4 (amended): if the maximum wait elapses without a completion condition
(the loop never declared completion), the chat operation still returns the
best-available extracted text — the post-loop re-read, with the chat-area
fallback when that read is empty — rather than failing; but the returned
value is a plain string carrying no incomplete tag. -/
theorem c4_timeout_partial (env : Nat → Tick) (maxWait : Nat) (cA : Option String)
    (h : (chatLoop env maxWait).completed = false) :
    (chatLoop env maxWait).exitTick = maxWait ∧
    smart_chat_wait env maxWait cA = smartChatFinish env maxWait cA := by
  have hex : (chatLoop env maxWait).exitTick = maxWait := by
    have := chatLoopAux_not_completed env maxWait 0 ⟨"", 0⟩ h
    simpa [chatLoop] using this
  refine ⟨hex, ?_⟩
  unfold smart_chat_wait
  rw [hex]

/-- Witness for C4 (amended): the alternating-text environment times out and
still yields the post-loop read. -/
theorem c4_witness :
    (chatLoop envTimeout 4).exitTick = 4 ∧
    smart_chat_wait envTimeout 4 none = smartChatFinish envTimeout 4 none :=
  c4_timeout_partial envTimeout 4 none (by decide)

theorem fireCond_iff (t : Tick) (s : GenState) :
    fireCond t s = true ↔
      ((t.stopVisible = false ∧ t.loadingVisible = false ∧ 3 ≤ s.stableCount) ∨
        5 ≤ s.stableCount) := by
  unfold fireCond
  simp [Bool.or_eq_true, Bool.and_eq_true, Bool.not_eq_true', and_assoc]

theorem stableCount_le_two (env : Nat → Tick) :
    ∀ i, (∀ j, j < i → tickFires (env j) (stateAt env j) = false) →
      (stateAt env i).stableCount ≤ 2 := by
  intro i
  induction i with
  | zero =>
    intro _
    show (0 : Nat) ≤ 2
    decide
  | succ n ih =>
    intro hno
    have hs : (stateAt env n).stableCount ≤ 2 := ih (fun j hj => hno j (by omega))
    have hnof : tickFires (env n) (stateAt env n) = false := hno n (by omega)
    show (tickNext (env n) (stateAt env n)).stableCount ≤ 2
    unfold tickNext signalReset
    by_cases hsig : ((env n).stopVisible || (env n).loadingVisible) = true
    · rw [if_pos hsig]
      show (0 : Nat) ≤ 2
      decide
    · rw [if_neg hsig]
      simp only [Bool.or_eq_true, not_or, Bool.not_eq_true] at hsig
      unfold updateText
      by_cases hlen : 50 < (env n).text.length
      · rw [if_pos hlen]
        by_cases heq : (env n).text = (stateAt env n).lastText
        · rw [if_pos heq]
          show (stateAt env n).stableCount + 1 ≤ 2
          by_contra hge
          have h3 : 3 ≤ (stateAt env n).stableCount + 1 := by omega
          have hfire : tickFires (env n) (stateAt env n) = true := by
            unfold tickFires fireCond updateText
            rw [if_pos hlen, if_pos heq]
            simp [hsig.1, hsig.2, hlen, h3]
          rw [hfire] at hnof
          exact absurd hnof (by decide)
        · rw [if_neg heq]
          show (0 : Nat) ≤ 2
          decide
      · rw [if_neg hlen]
        exact hs

theorem tickFires_iff (t : Tick) (s : GenState) (hs : s.stableCount ≤ 2) :
    tickFires t s = true ↔ fireCond t (updateText t s) = true := by
  unfold tickFires
  constructor
  · intro h
    rw [Bool.and_eq_true] at h
    exact h.2
  · intro h
    rw [Bool.and_eq_true]
    refine ⟨?_, h⟩
    by_contra hlen
    have hlen' : ¬ (50 < t.text.length) := by simpa using hlen
    have hupd : updateText t s = s := by
      unfold updateText
      rw [if_neg hlen']
    rw [hupd, fireCond_iff] at h
    rcases h with ⟨_, _, h3⟩ | h5 <;> omega

theorem chatLoopAux_completed_spec (env : Nat → Tick) :
    ∀ fuel i, (chatLoopAux env fuel i (stateAt env i)).completed = true →
      i ≤ (chatLoopAux env fuel i (stateAt env i)).exitTick ∧
      tickFires (env (chatLoopAux env fuel i (stateAt env i)).exitTick)
        (stateAt env (chatLoopAux env fuel i (stateAt env i)).exitTick) = true ∧
      ∀ j, i ≤ j → j < (chatLoopAux env fuel i (stateAt env i)).exitTick →
        tickFires (env j) (stateAt env j) = false := by
  intro fuel
  induction fuel with
  | zero =>
    intro i h
    simp [chatLoopAux] at h
  | succ n ih =>
    intro i h
    by_cases hf : tickFires (env i) (stateAt env i) = true
    · have hout : chatLoopAux env (n + 1) i (stateAt env i) =
          ⟨i, true, updateText (env i) (stateAt env i)⟩ := by
        conv_lhs => rw [chatLoopAux]
        rw [if_pos (by simpa using hf)]
      rw [hout]
      exact ⟨Nat.le_refl i, hf,
        fun j hj1 hj2 => absurd (Nat.lt_of_le_of_lt hj1 hj2) (Nat.lt_irrefl i)⟩
    · have hout : chatLoopAux env (n + 1) i (stateAt env i) =
          chatLoopAux env n (i + 1) (stateAt env (i + 1)) := by
        conv_lhs => rw [chatLoopAux]
        rw [if_neg (by simpa using hf)]
        rfl
      rw [hout] at h ⊢
      obtain ⟨h1, h3, h4⟩ := ih (i + 1) h
      refine ⟨by omega, h3, ?_⟩
      intro j hj1 hj2
      rcases Nat.eq_or_lt_of_le hj1 with he | hl
      · rw [← he]
        simpa using hf
      · exact h4 j hl hj2

/-- Whenever the loop declares completion, the completion tick is the first
tick satisfying condition (a) or (b) of the claim. -/
theorem chatLoop_first_fire (env : Nat → Tick) (mw : Nat)
    (h : (chatLoop env mw).completed = true) :
    completionCondAt env (chatLoop env mw).exitTick ∧
    ∀ j, j < (chatLoop env mw).exitTick → ¬ completionCondAt env j := by
  have hze : chatLoop env mw = chatLoopAux env mw 0 (stateAt env 0) := rfl
  rw [hze] at h ⊢
  obtain ⟨_, hfire, hno⟩ := chatLoopAux_completed_spec env mw 0 h
  constructor
  · unfold tickFires at hfire
    rw [Bool.and_eq_true] at hfire
    exact (fireCond_iff _ _).mp hfire.2
  · intro j hj hcond
    have hno' : ∀ i, i < j → tickFires (env i) (stateAt env i) = false :=
      fun i hi => hno i (Nat.zero_le i) (Nat.lt_trans hi hj)
    have hle := stableCount_le_two env j hno'
    have hfj : tickFires (env j) (stateAt env j) = true :=
      (tickFires_iff (env j) (stateAt env j) hle).mpr ((fireCond_iff _ _).mpr hcond)
    have := hno j (Nat.zero_le j) hj
    rw [hfj] at this
    exact absurd this (by decide)

/-- C2: the completion detector. In general (last conjunct), whenever the
polling loop declares completion, the completion tick is the first tick at
which either (a) no in-progress affordance and no loading indicator is visible
and the stability counter (as updated by that tick) is at least 3, or (b) the
counter alone reaches 5 regardless of the in-progress signals. Consequently,
for an environment with neither in-progress signal ever visible, whose
extracted text changes at every tick up to tick 10 and equals the non-trivial
final value `F` from tick 10 on, and any `max_wait ≥ 14`: the loop declares
completion no later than tick 13 and the returned text equals the stream's
final value `F`. -/
theorem c2_completion_convergence (env : Nat → Tick) (maxWait : Nat) (F : String)
    (hw : 14 ≤ maxWait)
    (hlong : 50 < F.length)
    (hsig : ∀ j, (env j).stopVisible = false ∧ (env j).loadingVisible = false)
    (hfinal : ∀ j, 10 ≤ j → (env j).text = F)
    (hchange : ∀ i j, i < j → j ≤ 10 → (env i).text ≠ (env j).text) :
    (chatLoop env maxWait).completed = true ∧
    (chatLoop env maxWait).exitTick ≤ 13 ∧
    (∀ cA, smart_chat_wait env maxWait cA = F) ∧
    (∀ (env' : Nat → Tick) (mw : Nat), (chatLoop env' mw).completed = true →
      completionCondAt env' (chatLoop env' mw).exitTick ∧
      ∀ j, j < (chatLoop env' mw).exitTick → ¬ completionCondAt env' j) := by
  have hsr : ∀ j s, signalReset (env j) s = s := by
    intro j s
    unfold signalReset
    rw [(hsig j).1, (hsig j).2]
    simp
  have hupd : ∀ j, stateAt env (j + 1) = updateText (env j) (stateAt env j) := by
    intro j
    show tickNext (env j) (stateAt env j) = _
    unfold tickNext
    rw [hsr]
  have hpre : ∀ j, j ≤ 10 → (stateAt env j).stableCount = 0 ∧
      ((stateAt env j).lastText = "" ∨
        ∃ i, i < j ∧ (stateAt env j).lastText = (env i).text) := by
    intro j
    induction j with
    | zero => intro _; exact ⟨rfl, Or.inl rfl⟩
    | succ n ih =>
      intro hn
      have hn' : n ≤ 10 := by omega
      obtain ⟨hc, hl⟩ := ih hn'
      by_cases hlen : 50 < (env n).text.length
      · have hne : (env n).text ≠ (stateAt env n).lastText := by
          rcases hl with h0 | ⟨i, hi, hiT⟩
          · rw [h0]
            intro h
            rw [h] at hlen
            exact absurd hlen (by decide)
          · rw [hiT]
            intro h
            exact hchange i n hi hn' h.symm
        have hu : updateText (env n) (stateAt env n) = ⟨(env n).text, 0⟩ := by
          unfold updateText
          rw [if_pos hlen, if_neg hne]
        rw [hupd n, hu]
        exact ⟨rfl, Or.inr ⟨n, by omega, rfl⟩⟩
      · have hu : updateText (env n) (stateAt env n) = stateAt env n := by
          unfold updateText
          rw [if_neg hlen]
        rw [hupd n, hu]
        refine ⟨hc, ?_⟩
        rcases hl with h0 | ⟨i, hi, hiT⟩
        · exact Or.inl h0
        · exact Or.inr ⟨i, by omega, hiT⟩
  have hneAt : ∀ j, j ≤ 10 → 50 < (env j).text.length →
      (env j).text ≠ (stateAt env j).lastText := by
    intro j hj hlen
    obtain ⟨_, hl⟩ := hpre j hj
    rcases hl with h0 | ⟨i, hi, hiT⟩
    · rw [h0]
      intro h
      rw [h] at hlen
      exact absurd hlen (by decide)
    · rw [hiT]
      intro h
      exact hchange i j hi hj h.symm
  have hfff : ∀ (j : Nat) (s : GenState), (updateText (env j) s).stableCount < 3 →
      tickFires (env j) s = false := by
    intro j s hc
    unfold tickFires fireCond
    have h3 : ¬ (3 ≤ (updateText (env j) s).stableCount) := by omega
    have h5 : ¬ (5 ≤ (updateText (env j) s).stableCount) := by omega
    simp [h3, h5]
  have hno10 : ∀ j, j < 10 → tickFires (env j) (stateAt env j) = false := by
    intro j hj
    by_cases hlen : 50 < (env j).text.length
    · have hu : updateText (env j) (stateAt env j) = ⟨(env j).text, 0⟩ := by
        unfold updateText
        rw [if_pos hlen, if_neg (hneAt j (by omega) hlen)]
      exact hfff j _ (by rw [hu]; show (0 : Nat) < 3; decide)
    · unfold tickFires
      simp [hlen]
  have hlen10 : ∀ j, 10 ≤ j → 50 < (env j).text.length := by
    intro j hj
    rw [hfinal j hj]
    exact hlong
  have h11 : stateAt env 11 = ⟨F, 0⟩ := by
    have hu : updateText (env 10) (stateAt env 10) = ⟨(env 10).text, 0⟩ := by
      unfold updateText
      rw [if_pos (hlen10 10 (by omega)),
        if_neg (hneAt 10 (by omega) (hlen10 10 (by omega)))]
    rw [hupd 10, hu, hfinal 10 (by omega)]
  have hstep : ∀ j c, 10 ≤ j → stateAt env j = ⟨F, c⟩ →
      stateAt env (j + 1) = ⟨F, c + 1⟩ := by
    intro j c hj hs
    have hu : updateText (env j) (stateAt env j) = ⟨F, c + 1⟩ := by
      unfold updateText
      rw [hs, hfinal j hj]
      simp [hlong]
    rw [hupd j, hu]
  have h12 : stateAt env 12 = ⟨F, 1⟩ := hstep 11 0 (by omega) h11
  have h13 : stateAt env 13 = ⟨F, 2⟩ := hstep 12 1 (by omega) h12
  have hu13 : updateText (env 13) (stateAt env 13) = ⟨F, 3⟩ := by
    unfold updateText
    rw [h13, hfinal 13 (by omega)]
    simp [hlong]
  have hfire13 : tickFires (env 13) (stateAt env 13) = true := by
    unfold tickFires fireCond
    rw [hu13, hfinal 13 (by omega), (hsig 13).1, (hsig 13).2]
    simp [hlong]
  have hno1012 : ∀ j, 10 ≤ j → j < 13 → tickFires (env j) (stateAt env j) = false := by
    intro j hj1 hj2
    have hcases : j = 10 ∨ j = 11 ∨ j = 12 := by omega
    rcases hcases with h | h | h
    · subst h
      have hu : updateText (env 10) (stateAt env 10) = ⟨(env 10).text, 0⟩ := by
        unfold updateText
        rw [if_pos (hlen10 10 (by omega)),
          if_neg (hneAt 10 (by omega) (hlen10 10 (by omega)))]
      exact hfff 10 _ (by rw [hu]; show (0 : Nat) < 3; decide)
    · subst h
      have hu : updateText (env 11) (stateAt env 11) = ⟨F, 1⟩ := by
        unfold updateText
        rw [h11, hfinal 11 (by omega)]
        simp [hlong]
      exact hfff 11 _ (by rw [hu]; show (1 : Nat) < 3; decide)
    · subst h
      have hu : updateText (env 12) (stateAt env 12) = ⟨F, 2⟩ := by
        unfold updateText
        rw [h12, hfinal 12 (by omega)]
        simp [hlong]
      exact hfff 12 _ (by rw [hu]; show (2 : Nat) < 3; decide)
  have hall : ∀ j, j < 13 → tickFires (env j) (stateAt env j) = false := by
    intro j hj
    by_cases h : j < 10
    · exact hno10 j h
    · exact hno1012 j (by omega) hj
  have hloop : chatLoop env maxWait = ⟨13, true, ⟨F, 3⟩⟩ := by
    unfold chatLoop
    have h0 : (⟨"", 0⟩ : GenState) = stateAt env 0 := rfl
    rw [h0]
    rw [chatLoopAux_fireAt env maxWait 0 13 (by omega) (by omega) hfire13
      (fun j _ hj2 => hall j hj2)]
    rw [hu13]
  have hFne : F ≠ "" := by
    intro h
    rw [h] at hlong
    exact absurd hlong (by decide)
  refine ⟨by rw [hloop], by rw [hloop], ?_,
    fun env' mw h => chatLoop_first_fire env' mw h⟩
  intro cA
  unfold smart_chat_wait smartChatFinish
  rw [hloop]
  dsimp only
  rw [hfinal 14 (by omega), hfinal 15 (by omega), if_pos rfl,
    hfinal 16 (by omega), if_pos hFne]

/-- Witness for C2: the concrete stream completes no later than tick 13 with
the stream's final value. -/
theorem c2_witness :
    (chatLoop convergEnv 20).completed = true ∧
    (chatLoop convergEnv 20).exitTick ≤ 13 ∧
    smart_chat_wait convergEnv 20 none = convergF := by
  have h := c2_completion_convergence convergEnv 20 convergF (by omega) (by decide)
    (fun j => ⟨rfl, rfl⟩)
    (by
      intro j hj
      show String.mk (List.replicate (51 + min j 10) 'a') = convergF
      rw [Nat.min_eq_right hj]
      rfl)
    (by
      intro i j hij hj10 h
      have hd : List.replicate (51 + min i 10) 'a' = List.replicate (51 + min j 10) 'a' := by
        simpa [convergEnv] using congrArg String.data h
      have h2 := congrArg List.length hd
      simp only [List.length_replicate] at h2
      rw [Nat.min_eq_left (by omega : i ≤ 10), Nat.min_eq_left hj10] at h2
      omega)
  exact ⟨h.1, h.2.1, h.2.2.1 none⟩

end NotebookLM
